import Mathlib

/-!
Verification of the mDNS responder/prober in `src/plugins/mdns/mdnsserver.cpp`
(nitroshare-desktop).

The C++ class `MdnsServer` is embedded shallowly: the mutable members
(`mHostname`, `mHostnameSuffix`, `mHostnameConfirmed`, the two `QUdpSocket`s'
bound state and multicast memberships, and the single-shot hostname timer's
armed state) become a Lean structure, and each Qt slot (`onSocketTimeout`,
`onHostnameTimeout`, `onReadyRead`, `onMessageReceived`) becomes a function
from state to state paired with the list of observable outputs (datagrams
written, signals emitted).  The OS environment (bind outcomes, interface
enumeration, the local machine name) is passed explicitly.
-/

namespace Mdns

/-- IP family, mirroring `QAbstractSocket::IPv4Protocol` / `IPv6Protocol`
and `DnsMessage::Protocol`. -/
inductive Protocol where
  | IPv4
  | IPv6
deriving DecidableEq, Repr

/-- DNS record/query type; the code only distinguishes A, AAAA and the rest. -/
inductive RecordType where
  | A
  | AAAA
  | Other
deriving DecidableEq, Repr

/-- A host address (`QHostAddress`): its family plus a textual identity. -/
structure HostAddress where
  protocol : Protocol
  host : String
deriving DecidableEq, Repr

/-- `DnsUtil::MdnsIpv4Address` (224.0.0.251). -/
def MdnsIpv4Address : HostAddress := ⟨Protocol.IPv4, "224.0.0.251"⟩

/-- `DnsUtil::MdnsIpv6Address` (ff02::fb). -/
def MdnsIpv6Address : HostAddress := ⟨Protocol.IPv6, "ff02::fb"⟩

/-- `DnsUtil::MdnsPort` (5353). -/
def MdnsPort : Nat := 5353

/-- A DNS resource record (`DnsRecord`): type, name, TTL. -/
structure DnsRecord where
  type : RecordType
  name : String
  ttl : Nat
deriving DecidableEq, Repr

/-- A DNS query record (`DnsQuery`): name and type. -/
structure DnsQuery where
  name : String
  type : RecordType
deriving DecidableEq, Repr

/-- A DNS message (`DnsMessage`): direction, records, queries, plus the
address / family / port annotation set by the router and the send path. -/
structure DnsMessage where
  isResponse : Bool
  records : List DnsRecord
  queries : List DnsQuery
  address : HostAddress
  protocol : Protocol
  port : Nat
deriving DecidableEq, Repr

/-- One local network interface as reported by
`QNetworkInterface::allInterfaces()`: an index, the `CanMulticast` flag,
and `allAddresses()`. -/
structure NetworkInterface where
  id : Nat
  canMulticast : Bool
  addresses : List HostAddress
deriving DecidableEq, Repr

/-- Outcomes of the OS calls inside `MdnsServer::bindSocket` for one socket:
whether the `ShareAddress` bind succeeds, whether `setsockopt(SO_REUSEADDR)`
succeeds, and whether the `ReuseAddressHint` retry bind succeeds. -/
structure BindEnv where
  shareBind : Bool
  setReuse : Bool
  reuseBind : Bool
deriving DecidableEq, Repr

/-- The OS environment visible to the component: bind outcomes per family,
the interface list, and `QHostInfo::localHostName()`. -/
structure Env where
  bind4 : BindEnv
  bind6 : BindEnv
  interfaces : List NetworkInterface
  localHostName : String
deriving DecidableEq, Repr

/-- Observable outputs: a datagram written through a socket
(`writeDatagram`), the `messageReceived` signal, the `hostnameConfirmed`
signal, and the `error` signal. -/
inductive Output where
  | sent (m : DnsMessage)
  | msgReceived (m : DnsMessage)
  | confirmed (name : String)
  | errored (msg : String)
deriving DecidableEq, Repr

/-- The mutable state of `MdnsServer`: hostname candidate, suffix counter,
confirmation flag, each socket's bound state and joined interface set, and
whether the single-shot `mHostnameTimer` is running. -/
structure MdnsServer where
  mHostname : String
  mHostnameSuffix : Nat
  mHostnameConfirmed : Bool
  ipv4Bound : Bool
  ipv6Bound : Bool
  ipv4Joined : List Nat
  ipv6Joined : List Nat
  hostnameTimerActive : Bool
deriving DecidableEq, Repr

/-- `MdnsServer::sendMessage`: encode and write the datagram through the
socket whose family matches `message.protocol()`.  The observable effect is
the sent message itself (its `protocol` field records which socket). -/
def sendMessage (message : DnsMessage) : List Output :=
  [Output.sent message]

/-- `MdnsServer::checkHostname`: build a query message with one query record
(name = candidate, type A), addressed to the family's mDNS multicast group at
the mDNS port, and send it.  Note: the source never starts `mHostnameTimer`
here (or anywhere), so this function touches no timer state. -/
def checkHostname (hostname : String) (protocol : Protocol) : List Output :=
  let query : DnsQuery := ⟨hostname, RecordType.A⟩
  let message : DnsMessage :=
    { isResponse := false
      records := []
      queries := [query]
      address := if protocol = Protocol.IPv4 then MdnsIpv4Address else MdnsIpv6Address
      protocol := protocol
      port := MdnsPort }
  sendMessage message

/-- `MdnsServer::bindSocket` (Unix path): try `bind(..., ShareAddress)`;
on failure try `setsockopt(SO_REUSEADDR)` (emitting an error if that call
fails) and retry with `bind(..., ReuseAddressHint)`, emitting an error if the
retry also fails.  Returns whether the socket ended up bound. -/
def bindSocket (be : BindEnv) : Bool × List Output :=
  if be.shareBind then (true, [])
  else
    let reuseOuts := if be.setReuse then [] else [Output.errored "setsockopt"]
    if be.reuseBind then (true, reuseOuts)
    else (false, reuseOuts ++ [Output.errored "bind"])

/-- Insert an interface id into a membership list if absent
(`joinMulticastGroup` on an already-joined group leaves the membership set
unchanged). -/
def insertId (x : Nat) (l : List Nat) : List Nat :=
  if x ∈ l then l else l ++ [x]

/-- The per-interface scan of `onSocketTimeout`: whether `allAddresses()`
holds at least one IPv4 address. -/
def hasIPv4Address (i : NetworkInterface) : Bool :=
  i.addresses.any fun a => a.protocol = Protocol.IPv4

/-- The per-interface scan of `onSocketTimeout`: whether `allAddresses()`
holds at least one IPv6 address. -/
def hasIPv6Address (i : NetworkInterface) : Bool :=
  i.addresses.any fun a => a.protocol = Protocol.IPv6

set_option linter.unusedVariables false in
/-- The interface loop of `MdnsServer::onSocketTimeout`: for each interface
with the `CanMulticast` flag, compute whether it carries an IPv4 and an IPv6
address, then join groups.  Faithful to the source, which tests
`ipv4Bound && ipv6Address` for the IPv4 socket (the computed `ipv4Address`
flag is never used). -/
def joinGroups (ipv4Bound ipv6Bound : Bool) :
    List NetworkInterface → List Nat × List Nat → List Nat × List Nat
  | [], jj => jj
  | i :: rest, jj =>
    if i.canMulticast then
      let ipv4Address := hasIPv4Address i
      let ipv6Address := hasIPv6Address i
      let j4 := if ipv4Bound && ipv6Address then insertId i.id jj.1 else jj.1
      let j6 := if ipv6Bound && ipv6Address then insertId i.id jj.2 else jj.2
      joinGroups ipv4Bound ipv6Bound rest (j4, j6)
    else
      joinGroups ipv4Bound ipv6Bound rest jj

/-- `MdnsServer::onSocketTimeout`: bind each socket if not already bound,
then (if either is bound) join multicast groups on every multicast-capable
interface and, while the hostname is unconfirmed, (re-)derive the candidate
from the local machine name, reset the suffix counter to 1, and send probe
queries on both families.  (The periodic restart of `mSocketTimer` carries no
modelled state: tick events may always occur.) -/
def onSocketTimeout (env : Env) (s : MdnsServer) : MdnsServer × List Output :=
  let r4 := if s.ipv4Bound then (true, []) else bindSocket env.bind4
  let r6 := if s.ipv6Bound then (true, []) else bindSocket env.bind6
  let ipv4Bound := r4.1
  let ipv6Bound := r6.1
  let bindOuts := r4.2 ++ r6.2
  if ipv4Bound || ipv6Bound then
    let jj := joinGroups ipv4Bound ipv6Bound env.interfaces (s.ipv4Joined, s.ipv6Joined)
    let s1 := { s with ipv4Bound := ipv4Bound, ipv6Bound := ipv6Bound,
                       ipv4Joined := jj.1, ipv6Joined := jj.2 }
    if s1.mHostnameConfirmed then
      (s1, bindOuts)
    else
      let hostname := env.localHostName ++ ".local."
      let s2 := { s1 with mHostname := hostname, mHostnameSuffix := 1 }
      (s2, bindOuts ++ checkHostname hostname Protocol.IPv4
                    ++ checkHostname hostname Protocol.IPv6)
  else
    ({ s with ipv4Bound := ipv4Bound, ipv6Bound := ipv6Bound }, bindOuts)

/-- `MdnsServer::onHostnameTimeout`: no response arrived for the hostname
query, so mark it confirmed and emit `hostnameConfirmed`. -/
def onHostnameTimeout (s : MdnsServer) : MdnsServer × List Output :=
  ({ s with mHostnameConfirmed := true }, [Output.confirmed s.mHostname])

/-- The conflict test of `MdnsServer::onMessageReceived`:
`(record.type() == A || record.type() == AAAA) && record.name() == mHostname
&& record.ttl()`. -/
def conflictRecord (hostname : String) (r : DnsRecord) : Bool :=
  (r.type = RecordType.A || r.type = RecordType.AAAA) &&
    r.name = hostname && r.ttl ≠ 0

/-- The record loop of `MdnsServer::onMessageReceived`: scan records; at the
first conflicting record, while unconfirmed, append `-<suffix>` to the base
name (post-increment: the name uses the old counter value), re-send probe
queries on both families, and `break`. -/
def processRecords (env : Env) (s : MdnsServer) :
    List DnsRecord → MdnsServer × List Output
  | [] => (s, [])
  | r :: rest =>
    if conflictRecord s.mHostname r then
      if s.mHostnameConfirmed then
        processRecords env s rest
      else
        let hostname := env.localHostName ++ ("-" ++ toString s.mHostnameSuffix) ++ ".local."
        let s1 := { s with mHostname := hostname,
                           mHostnameSuffix := s.mHostnameSuffix + 1 }
        (s1, checkHostname hostname Protocol.IPv4 ++ checkHostname hostname Protocol.IPv6)
    else
      processRecords env s rest

/-- `MdnsServer::onMessageReceived`: only response messages are examined. -/
def onMessageReceived (env : Env) (s : MdnsServer) (m : DnsMessage) :
    MdnsServer × List Output :=
  if m.isResponse then processRecords env s m.records else (s, [])

/-- One inbound datagram as delivered by `readDatagram`: the codec's decode
result (the codec is an external boundary, so the result is given), the
source address, and the source port. -/
structure Datagram where
  decoded : Option DnsMessage
  srcAddress : HostAddress
  srcPort : Nat
deriving DecidableEq, Repr

/-- The annotation of `MdnsServer::onReadyRead`: `setAddress(address)`,
`setProtocol(address.protocol() == IPv4Protocol ? IPv4 : IPv6)` — the family
comes from the source address, not from the receiving socket — and
`setPort(port)`. -/
def annotate (m : DnsMessage) (address : HostAddress) (port : Nat) : DnsMessage :=
  { m with address := address
           protocol := if address.protocol = Protocol.IPv4
                       then Protocol.IPv4 else Protocol.IPv6
           port := port }

/-- `MdnsServer::onReadyRead`: read one datagram; if decoding fails, drop it
silently; otherwise annotate it, emit `messageReceived`, which is connected
to `onMessageReceived`. -/
def onReadyRead (env : Env) (s : MdnsServer) (d : Datagram) :
    MdnsServer × List Output :=
  match d.decoded with
  | none => (s, [])
  | some m =>
    let m1 := annotate m d.srcAddress d.srcPort
    let r := onMessageReceived env s m1
    (r.1, Output.msgReceived m1 :: r.2)

/-- The events the single-threaded event loop can dispatch: a maintenance
tick (`mSocketTimer` timeout), the hostname timer firing, or a datagram
arriving on one of the two sockets. -/
inductive Event where
  | socketTick (env : Env)
  | hostnameTimeout
  | datagram (env : Env) (sock : Protocol) (d : Datagram)

/-- Whether the endpoint of the given family is bound. -/
def socketBound (s : MdnsServer) : Protocol → Bool
  | Protocol.IPv4 => s.ipv4Bound
  | Protocol.IPv6 => s.ipv6Bound

/-- One step of the event loop.  The hostname timer only fires when armed
(it is single-shot: firing disarms it); a socket only signals `readyRead`
while bound. -/
def step (s : MdnsServer) : Event → MdnsServer × List Output
  | Event.socketTick env => onSocketTimeout env s
  | Event.hostnameTimeout =>
    if s.hostnameTimerActive then
      onHostnameTimeout { s with hostnameTimerActive := false }
    else (s, [])
  | Event.datagram env sock d =>
    if socketBound s sock then onReadyRead env s d else (s, [])

/-- The state right before the constructor body runs: members value-
initialized, timers idle, sockets unbound. -/
def initialState : MdnsServer :=
  { mHostname := ""
    mHostnameSuffix := 0
    mHostnameConfirmed := false
    ipv4Bound := false
    ipv6Bound := false
    ipv4Joined := []
    ipv6Joined := []
    hostnameTimerActive := false }

/-- `MdnsServer::MdnsServer`: connect the slots, then call
`onSocketTimeout()` once. -/
def mdnsInit (env : Env) : MdnsServer × List Output :=
  onSocketTimeout env initialState

/-- Run a list of events from a state, accumulating outputs in order. -/
def run (s : MdnsServer) : List Event → MdnsServer × List Output
  | [] => (s, [])
  | e :: rest =>
    let r := step s e
    let r2 := run r.1 rest
    (r2.1, r.2 ++ r2.2)

/-- A whole component lifetime: construct with environment `env`, then
process `events`. -/
def runInit (env : Env) (events : List Event) : MdnsServer × List Output :=
  let r := mdnsInit env
  let r2 := run r.1 events
  (r2.1, r.2 ++ r2.2)

/-! ### Concrete fixtures used by counterexamples and witnesses -/

/-- A sample IPv4 host address. -/
def addr4 : HostAddress := ⟨Protocol.IPv4, "192.168.1.2"⟩

/-- A sample IPv6 host address. -/
def addr6 : HostAddress := ⟨Protocol.IPv6, "fe80::1"⟩

/-- A multicast-capable interface carrying only an IPv6 address. -/
def iface6only : NetworkInterface := ⟨0, true, [addr6]⟩

/-- A multicast-capable interface carrying only an IPv4 address. -/
def iface4only : NetworkInterface := ⟨1, true, [addr4]⟩

/-- An environment where both binds succeed at once, with one IPv6-only and
one IPv4-only multicast interface, machine name `host`. -/
def envA : Env :=
  { bind4 := ⟨true, true, true⟩
    bind6 := ⟨true, true, true⟩
    interfaces := [iface6only, iface4only]
    localHostName := "host" }

/-- A response message carrying one A record for `name` with TTL 120. -/
def conflictMsg (name : String) : DnsMessage :=
  { isResponse := true
    records := [⟨RecordType.A, name, 120⟩]
    queries := []
    address := addr4
    protocol := Protocol.IPv4
    port := MdnsPort }

/-- A datagram whose payload decodes to a conflicting response for
`host.local.`, sent from an IPv4 source. -/
def conflictDatagram : Datagram :=
  ⟨some (conflictMsg "host.local."), addr4, MdnsPort⟩

/-- Trace: one conflicting response after construction. -/
def conflictTrace : List Event :=
  [Event.datagram envA Protocol.IPv4 conflictDatagram]

/-- Trace: a conflicting response followed by a maintenance tick. -/
def conflictThenTick : List Event :=
  conflictTrace ++ [Event.socketTick envA]

/-- A non-response (query) message with no records. -/
def plainQueryMsg : DnsMessage :=
  { isResponse := false
    records := []
    queries := []
    address := addr6
    protocol := Protocol.IPv6
    port := 0 }

/-- A datagram from an IPv4 source carrying `plainQueryMsg`. -/
def crossDatagram : Datagram := ⟨some plainQueryMsg, addr4, 9999⟩

/-- A datagram whose payload fails to decode. -/
def garbageDatagram : Datagram := ⟨none, addr4, 1⟩

/-- A response whose records all fail the conflict test against
`host.local.`: wrong name, zero TTL, and wrong type. -/
def harmlessResponse : DnsMessage :=
  { isResponse := true
    records := [⟨RecordType.A, "other.local.", 120⟩,
                ⟨RecordType.AAAA, "host.local.", 0⟩,
                ⟨RecordType.Other, "host.local.", 120⟩]
    queries := []
    address := addr4
    protocol := Protocol.IPv4
    port := MdnsPort }

/-- A response with two records that both match `host.local.`. -/
def doubleConflictMsg : DnsMessage :=
  { isResponse := true
    records := [⟨RecordType.A, "host.local.", 120⟩,
                ⟨RecordType.AAAA, "host.local.", 240⟩]
    queries := []
    address := addr4
    protocol := Protocol.IPv4
    port := MdnsPort }

/-! ### Derived notions the theorems are stated with -/

/-- The candidate-name shape asserted by the spec (the claim's words, for
comparison with the state the code maintains): `base[-n].local.` with the
suffix written in the name equal to the counter value `n`, the bare form
corresponding to the counter's initial value 1. -/
def specCandidateName (base : String) (n : Nat) : String :=
  if n = 1 then base ++ ".local." else base ++ ("-" ++ toString n) ++ ".local."

/-- The bound/joined portion of the component state (the "socket state" of
the idempotence property). -/
def socketView (s : MdnsServer) : Bool × Bool × List Nat × List Nat :=
  (s.ipv4Bound, s.ipv6Bound, s.ipv4Joined, s.ipv6Joined)

/-- Recognizer for `hostnameConfirmed` outputs. -/
def isConfirmedOut : Output → Bool
  | Output.confirmed _ => true
  | _ => false

/-- The candidate invariant the code actually maintains while running with a
fixed machine name `h`: before any successful bind the name is still empty;
after a (re-)derivation it is the bare `<h>.local.` with the counter at 1;
after a retry it is `<h>-<k>.local.` with the counter at `k + 1` — the name
records the counter value at the instant it was formed, one behind the
counter.  (The timer and confirmation flags are pinned because the source
never arms the hostname timer.) -/
def candidateInv (h : String) (s : MdnsServer) : Prop :=
  s.hostnameTimerActive = false ∧ s.mHostnameConfirmed = false ∧
    ((s.mHostname = "" ∧ s.ipv4Bound = false ∧ s.ipv6Bound = false) ∨
     (s.mHostname = h ++ ".local." ∧ s.mHostnameSuffix = 1) ∨
     (∃ k, 1 ≤ k ∧ s.mHostname = h ++ ("-" ++ toString k) ++ ".local." ∧
           s.mHostnameSuffix = k + 1))

/-- Whether an event's environment reports machine name `h`. -/
def eventHostOk (h : String) : Event → Bool
  | Event.socketTick env => env.localHostName == h
  | Event.hostnameTimeout => true
  | Event.datagram env _ _ => env.localHostName == h

/-! ### Helper lemmas -/

theorem mem_insertId_self (x : Nat) (l : List Nat) : x ∈ insertId x l := by
  unfold insertId
  split
  · assumption
  · exact List.mem_append_right l (List.mem_singleton.mpr rfl)

theorem mem_insertId_of_mem {x : Nat} (y : Nat) {l : List Nat} (h : x ∈ l) :
    x ∈ insertId y l := by
  unfold insertId
  split
  · exact h
  · exact List.mem_append_left _ h

theorem insertId_of_mem {x : Nat} {l : List Nat} (h : x ∈ l) : insertId x l = l := by
  unfold insertId
  exact if_pos h

theorem processRecords_no_match (env : Env) (s : MdnsServer)
    (recs : List DnsRecord)
    (h : ∀ r ∈ recs, conflictRecord s.mHostname r = false) :
    processRecords env s recs = (s, []) := by
  induction recs with
  | nil => rfl
  | cons r rest ih =>
    unfold processRecords
    rw [h r (List.mem_cons_self r rest)]
    simp only [Bool.false_eq_true, if_false]
    exact ih fun q hq => h q (List.mem_cons_of_mem _ hq)

theorem processRecords_first_match (env : Env) (s : MdnsServer)
    (recs : List DnsRecord)
    (hc : s.mHostnameConfirmed = false)
    (hm : recs.any (conflictRecord s.mHostname) = true) :
    processRecords env s recs =
      ({ s with
          mHostname :=
            env.localHostName ++ ("-" ++ toString s.mHostnameSuffix) ++ ".local.",
          mHostnameSuffix := s.mHostnameSuffix + 1 },
       checkHostname
           (env.localHostName ++ ("-" ++ toString s.mHostnameSuffix) ++ ".local.")
           Protocol.IPv4 ++
         checkHostname
           (env.localHostName ++ ("-" ++ toString s.mHostnameSuffix) ++ ".local.")
           Protocol.IPv6) := by
  induction recs with
  | nil => simp at hm
  | cons r rest ih =>
    unfold processRecords
    by_cases hr : conflictRecord s.mHostname r = true
    · rw [hr, hc]
      simp
    · rw [Bool.not_eq_true] at hr
      rw [hr]
      simp only [Bool.false_eq_true, if_false]
      apply ih
      simp only [List.any_cons, hr, Bool.false_or] at hm
      exact hm

theorem processRecords_confirmed (env : Env) (s : MdnsServer)
    (recs : List DnsRecord) :
    (processRecords env s recs).1.mHostnameConfirmed = s.mHostnameConfirmed := by
  induction recs with
  | nil => rfl
  | cons r rest ih =>
    unfold processRecords
    split
    · split
      · exact ih
      · rfl
    · exact ih

theorem processRecords_timerActive (env : Env) (s : MdnsServer)
    (recs : List DnsRecord) :
    (processRecords env s recs).1.hostnameTimerActive = s.hostnameTimerActive := by
  induction recs with
  | nil => rfl
  | cons r rest ih =>
    unfold processRecords
    split
    · split
      · exact ih
      · rfl
    · exact ih

theorem onSocketTimeout_timerActive (env : Env) (s : MdnsServer) :
    (onSocketTimeout env s).1.hostnameTimerActive = s.hostnameTimerActive := by
  unfold onSocketTimeout
  dsimp only
  repeat' split
  all_goals rfl

theorem onSocketTimeout_confirmed (env : Env) (s : MdnsServer) :
    (onSocketTimeout env s).1.mHostnameConfirmed = s.mHostnameConfirmed := by
  unfold onSocketTimeout
  dsimp only
  repeat' split
  all_goals rfl

theorem onSocketTimeout_suffix (env : Env) (s : MdnsServer) :
    (onSocketTimeout env s).1.mHostnameSuffix = s.mHostnameSuffix ∨
      (onSocketTimeout env s).1.mHostnameSuffix = 1 := by
  unfold onSocketTimeout
  dsimp only
  repeat' split
  all_goals first | exact Or.inl rfl | exact Or.inr rfl

theorem onSocketTimeout_bound4 (env : Env) (s : MdnsServer) :
    (onSocketTimeout env s).1.ipv4Bound =
      (if s.ipv4Bound then true else (bindSocket env.bind4).1) := by
  unfold onSocketTimeout
  cases s.ipv4Bound <;> dsimp only <;> repeat' split
  all_goals rfl

theorem onSocketTimeout_bound6 (env : Env) (s : MdnsServer) :
    (onSocketTimeout env s).1.ipv6Bound =
      (if s.ipv6Bound then true else (bindSocket env.bind6).1) := by
  unfold onSocketTimeout
  cases s.ipv6Bound <;> dsimp only <;> repeat' split
  all_goals rfl

theorem onSocketTimeout_joined (env : Env) (s : MdnsServer) :
    ((onSocketTimeout env s).1.ipv4Joined, (onSocketTimeout env s).1.ipv6Joined) =
      (if ((if s.ipv4Bound then true else (bindSocket env.bind4).1) ||
            (if s.ipv6Bound then true else (bindSocket env.bind6).1)) then
         joinGroups (if s.ipv4Bound then true else (bindSocket env.bind4).1)
           (if s.ipv6Bound then true else (bindSocket env.bind6).1)
           env.interfaces (s.ipv4Joined, s.ipv6Joined)
       else (s.ipv4Joined, s.ipv6Joined)) := by
  unfold onSocketTimeout
  cases s.ipv4Bound <;> cases s.ipv6Bound <;> dsimp only <;> repeat' split
  all_goals rfl

theorem onSocketTimeout_hostname_of_active (env : Env) (s : MdnsServer)
    (hc : s.mHostnameConfirmed = false)
    (hb : ((if s.ipv4Bound then true else (bindSocket env.bind4).1) ||
           (if s.ipv6Bound then true else (bindSocket env.bind6).1)) = true) :
    (onSocketTimeout env s).1.mHostname = env.localHostName ++ ".local." ∧
      (onSocketTimeout env s).1.mHostnameSuffix = 1 := by
  unfold onSocketTimeout
  cases h4 : s.ipv4Bound <;> cases h6 : s.ipv6Bound <;>
    rw [h4] at hb <;> rw [h6] at hb <;> simp_all

theorem onSocketTimeout_hostname_of_inactive (env : Env) (s : MdnsServer)
    (hb : ((if s.ipv4Bound then true else (bindSocket env.bind4).1) ||
           (if s.ipv6Bound then true else (bindSocket env.bind6).1)) = false) :
    (onSocketTimeout env s).1.mHostname = s.mHostname ∧
      (onSocketTimeout env s).1.mHostnameSuffix = s.mHostnameSuffix := by
  unfold onSocketTimeout
  cases h4 : s.ipv4Bound <;> cases h6 : s.ipv6Bound <;>
    rw [h4] at hb <;> rw [h6] at hb <;> simp_all

theorem joinGroups_mem_left {x : Nat} (b4 b6 : Bool)
    (l : List NetworkInterface) (jj : List Nat × List Nat) (h : x ∈ jj.1) :
    x ∈ (joinGroups b4 b6 l jj).1 := by
  induction l generalizing jj with
  | nil => exact h
  | cons i rest ih =>
    unfold joinGroups
    split
    · apply ih
      dsimp only
      split
      · exact mem_insertId_of_mem _ h
      · exact h
    · exact ih _ h

theorem joinGroups_mem_right {x : Nat} (b4 b6 : Bool)
    (l : List NetworkInterface) (jj : List Nat × List Nat) (h : x ∈ jj.2) :
    x ∈ (joinGroups b4 b6 l jj).2 := by
  induction l generalizing jj with
  | nil => exact h
  | cons i rest ih =>
    unfold joinGroups
    split
    · apply ih
      dsimp only
      split
      · exact mem_insertId_of_mem _ h
      · exact h
    · exact ih _ h

theorem joinGroups_covers_left (b4 b6 : Bool) (l : List NetworkInterface)
    (jj : List Nat × List Nat) {i : NetworkInterface} (hi : i ∈ l)
    (hcm : i.canMulticast = true) (hb : (b4 && hasIPv6Address i) = true) :
    i.id ∈ (joinGroups b4 b6 l jj).1 := by
  induction l generalizing jj with
  | nil => cases hi
  | cons j rest ih =>
    unfold joinGroups
    rcases List.mem_cons.mp hi with hij | hrest
    · subst hij
      rw [if_pos hcm]
      exact joinGroups_mem_left b4 b6 rest _
        (by rw [if_pos hb]; exact mem_insertId_self _ _)
    · split
      · exact ih _ hrest
      · exact ih _ hrest

theorem joinGroups_covers_right (b4 b6 : Bool) (l : List NetworkInterface)
    (jj : List Nat × List Nat) {i : NetworkInterface} (hi : i ∈ l)
    (hcm : i.canMulticast = true) (hb : (b6 && hasIPv6Address i) = true) :
    i.id ∈ (joinGroups b4 b6 l jj).2 := by
  induction l generalizing jj with
  | nil => cases hi
  | cons j rest ih =>
    unfold joinGroups
    rcases List.mem_cons.mp hi with hij | hrest
    · subst hij
      rw [if_pos hcm]
      exact joinGroups_mem_right b4 b6 rest _
        (by rw [if_pos hb]; exact mem_insertId_self _ _)
    · split
      · exact ih _ hrest
      · exact ih _ hrest

theorem joinGroups_stable (b4 b6 : Bool) (l : List NetworkInterface)
    (jj : List Nat × List Nat)
    (h1 : ∀ i ∈ l, i.canMulticast = true → (b4 && hasIPv6Address i) = true →
      i.id ∈ jj.1)
    (h2 : ∀ i ∈ l, i.canMulticast = true → (b6 && hasIPv6Address i) = true →
      i.id ∈ jj.2) :
    joinGroups b4 b6 l jj = jj := by
  induction l with
  | nil => rfl
  | cons i rest ih =>
    unfold joinGroups
    split
    case isTrue hcm =>
      have e4 : (if b4 && hasIPv6Address i then insertId i.id jj.1 else jj.1) = jj.1 := by
        split
        case isTrue hbb =>
          exact insertId_of_mem (h1 i (List.mem_cons_self i rest) hcm hbb)
        case isFalse => rfl
      have e6 : (if b6 && hasIPv6Address i then insertId i.id jj.2 else jj.2) = jj.2 := by
        split
        case isTrue hbb =>
          exact insertId_of_mem (h2 i (List.mem_cons_self i rest) hcm hbb)
        case isFalse => rfl
      dsimp only
      rw [e4, e6]
      exact ih (fun j hj => h1 j (List.mem_cons_of_mem _ hj))
        (fun j hj => h2 j (List.mem_cons_of_mem _ hj))
    case isFalse =>
      exact ih (fun j hj => h1 j (List.mem_cons_of_mem _ hj))
        (fun j hj => h2 j (List.mem_cons_of_mem _ hj))

theorem joinGroups_idem (b4 b6 : Bool) (l : List NetworkInterface)
    (jj : List Nat × List Nat) :
    joinGroups b4 b6 l (joinGroups b4 b6 l jj) = joinGroups b4 b6 l jj :=
  joinGroups_stable b4 b6 l _
    (fun _ hi hcm hb => joinGroups_covers_left b4 b6 l jj hi hcm hb)
    (fun _ hi hcm hb => joinGroups_covers_right b4 b6 l jj hi hcm hb)

theorem processRecords_suffix (env : Env) (s : MdnsServer)
    (recs : List DnsRecord) :
    (processRecords env s recs).1.mHostnameSuffix = s.mHostnameSuffix ∨
      (processRecords env s recs).1.mHostnameSuffix = s.mHostnameSuffix + 1 := by
  induction recs with
  | nil => exact Or.inl rfl
  | cons r rest ih =>
    unfold processRecords
    split
    · split
      · exact ih
      · exact Or.inr rfl
    · exact ih

theorem bindSocket_no_confirm (be : BindEnv) :
    (bindSocket be).2.filter isConfirmedOut = [] := by
  unfold bindSocket
  repeat' split
  all_goals simp [isConfirmedOut]

theorem checkHostname_no_confirm (hostname : String) (p : Protocol) :
    (checkHostname hostname p).filter isConfirmedOut = [] := rfl

theorem onSocketTimeout_no_confirm (env : Env) (s : MdnsServer) :
    (onSocketTimeout env s).2.filter isConfirmedOut = [] := by
  unfold onSocketTimeout
  dsimp only
  repeat' split
  all_goals
    simp [List.filter_append, bindSocket_no_confirm, checkHostname_no_confirm,
      isConfirmedOut]

theorem processRecords_no_confirm (env : Env) (s : MdnsServer)
    (recs : List DnsRecord) :
    (processRecords env s recs).2.filter isConfirmedOut = [] := by
  induction recs with
  | nil => rfl
  | cons r rest ih =>
    unfold processRecords
    split
    · split
      · exact ih
      · simp [List.filter_append, checkHostname_no_confirm]
    · exact ih

theorem onMessageReceived_no_confirm (env : Env) (s : MdnsServer)
    (m : DnsMessage) :
    (onMessageReceived env s m).2.filter isConfirmedOut = [] := by
  unfold onMessageReceived
  split
  · exact processRecords_no_confirm env s m.records
  · rfl

theorem onMessageReceived_timerActive (env : Env) (s : MdnsServer)
    (m : DnsMessage) :
    (onMessageReceived env s m).1.hostnameTimerActive = s.hostnameTimerActive := by
  unfold onMessageReceived
  split
  · exact processRecords_timerActive env s m.records
  · rfl

theorem onReadyRead_timerActive (env : Env) (s : MdnsServer) (d : Datagram) :
    (onReadyRead env s d).1.hostnameTimerActive = s.hostnameTimerActive := by
  unfold onReadyRead
  split
  · rfl
  · exact onMessageReceived_timerActive env s _

theorem onReadyRead_no_confirm (env : Env) (s : MdnsServer) (d : Datagram) :
    (onReadyRead env s d).2.filter isConfirmedOut = [] := by
  unfold onReadyRead
  split
  · rfl
  · dsimp only
    rw [List.filter_cons]
    simp only [isConfirmedOut]
    exact onMessageReceived_no_confirm env s _

theorem step_timerActive (s : MdnsServer) (e : Event)
    (h : s.hostnameTimerActive = false) :
    (step s e).1.hostnameTimerActive = false := by
  cases e with
  | socketTick env => rw [step, onSocketTimeout_timerActive]; exact h
  | hostnameTimeout => rw [step]; simp [h]
  | datagram env sock d =>
    rw [step]
    split
    · rw [onReadyRead_timerActive]; exact h
    · exact h

theorem step_no_confirm (s : MdnsServer) (e : Event)
    (h : s.hostnameTimerActive = false) :
    (step s e).2.filter isConfirmedOut = [] := by
  cases e with
  | socketTick env => exact onSocketTimeout_no_confirm env s
  | hostnameTimeout => rw [step]; simp [h]
  | datagram env sock d =>
    rw [step]
    split
    · exact onReadyRead_no_confirm env s d
    · rfl

theorem run_timerActive (events : List Event) (s : MdnsServer)
    (h : s.hostnameTimerActive = false) :
    (run s events).1.hostnameTimerActive = false := by
  induction events generalizing s with
  | nil => exact h
  | cons e rest ih =>
    unfold run
    exact ih _ (step_timerActive s e h)

theorem run_no_confirm (events : List Event) (s : MdnsServer)
    (h : s.hostnameTimerActive = false) :
    (run s events).2.filter isConfirmedOut = [] := by
  induction events generalizing s with
  | nil => rfl
  | cons e rest ih =>
    unfold run
    dsimp only
    rw [List.filter_append, step_no_confirm s e h, ih _ (step_timerActive s e h)]
    rfl

theorem mdnsInit_timerActive (env : Env) :
    (mdnsInit env).1.hostnameTimerActive = false := by
  unfold mdnsInit
  rw [onSocketTimeout_timerActive]
  rfl

theorem onMessageReceived_suffix (env : Env) (s : MdnsServer) (m : DnsMessage) :
    (onMessageReceived env s m).1.mHostnameSuffix = s.mHostnameSuffix ∨
      (onMessageReceived env s m).1.mHostnameSuffix = s.mHostnameSuffix + 1 := by
  unfold onMessageReceived
  split
  · exact processRecords_suffix env s m.records
  · exact Or.inl rfl

theorem onReadyRead_suffix (env : Env) (s : MdnsServer) (d : Datagram) :
    (onReadyRead env s d).1.mHostnameSuffix = s.mHostnameSuffix ∨
      (onReadyRead env s d).1.mHostnameSuffix = s.mHostnameSuffix + 1 := by
  unfold onReadyRead
  split
  · exact Or.inl rfl
  · exact onMessageReceived_suffix env s _

theorem bind_retry_stable (b x : Bool) :
    (if (if b = true then true else x) = true then true else x) =
      (if b = true then true else x) := by
  cases b <;> cases x <;> rfl

theorem processRecords_namedCases (env : Env) (h : String) (s : MdnsServer)
    (recs : List DnsRecord) (he : env.localHostName = h)
    (hn : (s.mHostname = h ++ ".local." ∧ s.mHostnameSuffix = 1) ∨
      (∃ k, 1 ≤ k ∧ s.mHostname = h ++ ("-" ++ toString k) ++ ".local." ∧
        s.mHostnameSuffix = k + 1)) :
    ((processRecords env s recs).1.mHostname = h ++ ".local." ∧
        (processRecords env s recs).1.mHostnameSuffix = 1) ∨
      (∃ k, 1 ≤ k ∧
        (processRecords env s recs).1.mHostname =
          h ++ ("-" ++ toString k) ++ ".local." ∧
        (processRecords env s recs).1.mHostnameSuffix = k + 1) := by
  induction recs with
  | nil => exact hn
  | cons r rest ih =>
    unfold processRecords
    split
    · split
      · exact ih
      · right
        have h1 : 1 ≤ s.mHostnameSuffix := by
          rcases hn with ⟨_, hn2⟩ | ⟨k, _, _, hk2⟩
          · rw [hn2]
          · rw [hk2]; exact Nat.le_add_left 1 k
        exact ⟨s.mHostnameSuffix, h1, by rw [← he], rfl⟩
    · exact ih

theorem step_candidateInv (h : String) (s : MdnsServer) (e : Event)
    (hs : candidateInv h s) (he : eventHostOk h e = true) :
    candidateInv h (step s e).1 := by
  obtain ⟨ht, hc, hcase⟩ := hs
  cases e with
  | socketTick env =>
    have henv : env.localHostName = h := by simpa [eventHostOk] using he
    rw [step]
    refine ⟨by rw [onSocketTimeout_timerActive]; exact ht,
            by rw [onSocketTimeout_confirmed]; exact hc, ?_⟩
    by_cases hb : ((if s.ipv4Bound = true then true
          else (bindSocket env.bind4).1) ||
        (if s.ipv6Bound = true then true
          else (bindSocket env.bind6).1)) = true
    · obtain ⟨hh, hsuf⟩ := onSocketTimeout_hostname_of_active env s hc hb
      right; left
      exact ⟨by rw [hh, henv], hsuf⟩
    · rw [Bool.not_eq_true] at hb
      obtain ⟨hh, hsuf⟩ := onSocketTimeout_hostname_of_inactive env s hb
      rw [Bool.or_eq_false_iff] at hb
      obtain ⟨hb4f, hb6f⟩ := hb
      rcases hcase with ⟨h1, h2, h3⟩ | hbare | hret
      · left
        refine ⟨by rw [hh]; exact h1, ?_, ?_⟩
        · rw [onSocketTimeout_bound4]; exact hb4f
        · rw [onSocketTimeout_bound6]; exact hb6f
      · right; left
        exact ⟨by rw [hh]; exact hbare.1, by rw [hsuf]; exact hbare.2⟩
      · right; right
        obtain ⟨k, hk, hkn, hk2⟩ := hret
        exact ⟨k, hk, by rw [hh]; exact hkn, by rw [hsuf]; exact hk2⟩
  | hostnameTimeout =>
    rw [step, if_neg (by rw [ht]; exact Bool.false_ne_true)]
    exact ⟨ht, hc, hcase⟩
  | datagram env sock d =>
    have henv : env.localHostName = h := by simpa [eventHostOk] using he
    rw [step]
    split
    case isTrue hbd =>
      unfold onReadyRead
      split
      case h_1 => exact ⟨ht, hc, hcase⟩
      case h_2 m hm =>
        dsimp only
        unfold onMessageReceived
        split
        · have hnamed : (s.mHostname = h ++ ".local." ∧ s.mHostnameSuffix = 1) ∨
              (∃ k, 1 ≤ k ∧
                s.mHostname = h ++ ("-" ++ toString k) ++ ".local." ∧
                s.mHostnameSuffix = k + 1) := by
            rcases hcase with ⟨h1, h2, h3⟩ | hbare | hret
            · exfalso
              cases sock <;> simp [socketBound, h2, h3] at hbd
            · exact Or.inl hbare
            · exact Or.inr hret
          refine ⟨by rw [processRecords_timerActive]; exact ht,
                  by rw [processRecords_confirmed]; exact hc, ?_⟩
          exact Or.inr (processRecords_namedCases env h s _ henv hnamed)
        · exact ⟨ht, hc, hcase⟩
    case isFalse => exact ⟨ht, hc, hcase⟩

theorem run_candidateInv (h : String) (events : List Event) (s : MdnsServer)
    (hs : candidateInv h s) (hev : events.all (eventHostOk h) = true) :
    candidateInv h (run s events).1 := by
  induction events generalizing s with
  | nil => exact hs
  | cons e rest ih =>
    unfold run
    dsimp only
    rw [List.all_cons, Bool.and_eq_true] at hev
    exact ih _ (step_candidateInv h s e hs hev.1) hev.2

/-! ### The claims -/

/-- Claim C1 (code bug): during membership maintenance the IPv4 endpoint is
supposed to join only on interfaces carrying an IPv4 address; the source
tests `ipv4Bound && ipv6Address` (the computed `ipv4Address` flag is unused),
so on the first tick of `envA` the IPv4 socket joins on the IPv6-only
interface and does not join on the IPv4-only one. -/
theorem ipv4_join_follows_ipv6_presence :
    (mdnsInit envA).1.ipv4Joined = [iface6only.id] ∧
      hasIPv4Address iface6only = false ∧
      hasIPv4Address iface4only = true ∧
      ((mdnsInit envA).1.ipv4Joined.contains iface4only.id) = false :=
  ⟨rfl, rfl, rfl, rfl⟩

/-- Claim C2 (code bug): the spec arms the confirmation timer on every entry
to `Probing`; the source never calls `mHostnameTimer.start`, so along every
lifetime the timer stays unarmed — even on a lifetime whose first tick binds
both sockets, sets the candidate and sends both probe queries. -/
theorem confirmation_timer_never_armed :
    (∀ (env : Env) (events : List Event),
        (runInit env events).1.hostnameTimerActive = false) ∧
      (mdnsInit envA).1.mHostname = "host.local." ∧
      (mdnsInit envA).2 =
        checkHostname "host.local." Protocol.IPv4 ++
          checkHostname "host.local." Protocol.IPv6 ∧
      (mdnsInit envA).1.hostnameTimerActive = false := by
  refine ⟨fun env events => ?_, rfl, rfl, rfl⟩
  unfold runInit
  exact run_timerActive events _ (mdnsInit_timerActive env)

/-- Claim C3 counterexample: after the initial tick the suffix counter is 1;
one conflicting response raises it to 2; the next maintenance tick (socket
bound, hostname still unconfirmed) resets it to 1 — the counter decreases. -/
theorem suffix_counter_decreases :
    (runInit envA conflictTrace).1.mHostnameSuffix = 2 ∧
      (runInit envA conflictThenTick).1.mHostnameSuffix = 1 :=
  ⟨rfl, rfl⟩

/-- Claim C3 amended: each handled conflicting response increments the
suffix counter by exactly one, and no event ever lowers it other than a
maintenance tick that re-enters probing and resets it to 1. -/
theorem suffix_monotone_between_resets :
    (∀ (s : MdnsServer) (e : Event),
        s.mHostnameSuffix ≤ (step s e).1.mHostnameSuffix ∨
          (step s e).1.mHostnameSuffix = 1) ∧
      ∀ (env : Env) (s : MdnsServer) (m : DnsMessage),
        s.mHostnameConfirmed = false → m.isResponse = true →
        m.records.any (conflictRecord s.mHostname) = true →
        (onMessageReceived env s m).1.mHostnameSuffix = s.mHostnameSuffix + 1 := by
  constructor
  · intro s e
    cases e with
    | socketTick env =>
      rcases onSocketTimeout_suffix env s with h | h
      · exact Or.inl (le_of_eq (by rw [step, h]))
      · exact Or.inr (by rw [step]; exact h)
    | hostnameTimeout =>
      rw [step]
      split
      · exact Or.inl (le_refl _)
      · exact Or.inl (le_refl _)
    | datagram env sock d =>
      rw [step]
      split
      · rcases onReadyRead_suffix env s d with h | h
        · exact Or.inl (le_of_eq h.symm)
        · exact Or.inl (by rw [h]; exact Nat.le_succ _)
      · exact Or.inl (le_refl _)
  · intro env s m hc hr hm
    unfold onMessageReceived
    rw [if_pos hr, processRecords_first_match env s m.records hc hm]

/-- Witness for the amended C3 theorem: a concrete conflicting response
against the freshly probed state increments the counter from 1 to 2. -/
theorem suffix_monotone_between_resets_witness :
    (onMessageReceived envA (mdnsInit envA).1
        (conflictMsg "host.local.")).1.mHostnameSuffix =
      (mdnsInit envA).1.mHostnameSuffix + 1 :=
  suffix_monotone_between_resets.2 envA (mdnsInit envA).1
    (conflictMsg "host.local.") rfl rfl rfl

/-- Claim C4 (code bug): `hostnameConfirmed` is claimed to fire exactly once
per lifetime; because the confirmation timer is never armed, the timeout
slot never runs and the event fires zero times along every lifetime. -/
theorem hostnameConfirmed_never_fires :
    ∀ (env : Env) (events : List Event),
      (runInit env events).2.filter isConfirmedOut = [] := by
  intro env events
  unfold runInit
  dsimp only
  rw [List.filter_append]
  have h1 : (mdnsInit env).2.filter isConfirmedOut = [] :=
    onSocketTimeout_no_confirm env initialState
  rw [h1, run_no_confirm events _ (mdnsInit_timerActive env)]
  rfl

/-- Claim C5 counterexample: after one conflict the candidate is
`host-1.local.` while the counter is 2 — the suffix written in the name does
not match the counter (it is the counter's previous value). -/
theorem candidate_name_behind_counter :
    (runInit envA conflictTrace).1.mHostname = "host-1.local." ∧
      (runInit envA conflictTrace).1.mHostnameSuffix = 2 ∧
      specCandidateName "host" 2 = "host-2.local." ∧
      ((runInit envA conflictTrace).1.mHostname ==
        specCandidateName "host"
          (runInit envA conflictTrace).1.mHostnameSuffix) = false :=
  ⟨rfl, rfl, rfl, rfl⟩

/-- Claim C6 counterexample: a datagram arriving on the IPv6 endpoint from
an IPv4 source address is annotated with family IPv4 (the source address's
family), not IPv6 (the receiving endpoint's family). -/
theorem annotation_family_from_source_address :
    (mdnsInit envA).1.ipv6Bound = true ∧
      (step (mdnsInit envA).1
          (Event.datagram envA Protocol.IPv6 crossDatagram)).2 =
        [Output.msgReceived (annotate plainQueryMsg addr4 9999)] ∧
      (annotate plainQueryMsg addr4 9999).protocol = Protocol.IPv4 ∧
      addr4.protocol = Protocol.IPv4 :=
  ⟨rfl, rfl, rfl, rfl⟩

/-- Claim C6 amended: every successfully decoded inbound message is
annotated, before dispatch, with its source address, its source port, and
the IP family of its source address (which the code uses in place of the
receiving endpoint's family). -/
theorem annotation_fields (env : Env) (s : MdnsServer) (sock : Protocol)
    (d : Datagram) (m : DnsMessage)
    (hd : d.decoded = some m) (hb : socketBound s sock = true) :
    (annotate m d.srcAddress d.srcPort).address = d.srcAddress ∧
      (annotate m d.srcAddress d.srcPort).port = d.srcPort ∧
      (annotate m d.srcAddress d.srcPort).protocol = d.srcAddress.protocol ∧
      (step s (Event.datagram env sock d)).2 =
        Output.msgReceived (annotate m d.srcAddress d.srcPort) ::
          (onMessageReceived env s (annotate m d.srcAddress d.srcPort)).2 := by
  refine ⟨rfl, rfl, ?_, ?_⟩
  · unfold annotate
    cases hp : d.srcAddress.protocol <;> simp [hp]
  · rw [step, if_pos hb]
    unfold onReadyRead
    rw [hd]

/-- Witness for the amended C6 theorem at the concrete cross-family
datagram. -/
theorem annotation_fields_witness :
    (annotate plainQueryMsg crossDatagram.srcAddress
        crossDatagram.srcPort).address = crossDatagram.srcAddress ∧
      (annotate plainQueryMsg crossDatagram.srcAddress
          crossDatagram.srcPort).port = crossDatagram.srcPort ∧
      (annotate plainQueryMsg crossDatagram.srcAddress
          crossDatagram.srcPort).protocol = crossDatagram.srcAddress.protocol ∧
      (step (mdnsInit envA).1
          (Event.datagram envA Protocol.IPv6 crossDatagram)).2 =
        Output.msgReceived (annotate plainQueryMsg crossDatagram.srcAddress
            crossDatagram.srcPort) ::
          (onMessageReceived envA (mdnsInit envA).1
              (annotate plainQueryMsg crossDatagram.srcAddress
                crossDatagram.srcPort)).2 :=
  annotation_fields envA (mdnsInit envA).1 Protocol.IPv6 crossDatagram
    plainQueryMsg rfl rfl

/-- Claim C7 (confirmed): a message that is not a response, or a response
all of whose records fail the conflict test (type not A/AAAA, or name
different from the candidate, or zero TTL), leaves the prober state —
candidate, suffix counter, confirmation flag — unchanged and sends no probe
query. -/
theorem no_conflict_no_retry (env : Env) (s : MdnsServer) (m : DnsMessage)
    (h : m.isResponse = false ∨
      m.records.all (fun r => !conflictRecord s.mHostname r) = true) :
    onMessageReceived env s m = (s, []) := by
  rcases h with h | h
  · unfold onMessageReceived
    rw [h]
    simp
  · unfold onMessageReceived
    split
    · apply processRecords_no_match
      intro r hr
      have := List.all_eq_true.mp h r hr
      simpa using this
    · rfl

/-- Witness for C7: a response carrying a wrong-name record, a zero-TTL
record and a non-address record changes nothing. -/
theorem no_conflict_no_retry_witness :
    onMessageReceived envA (mdnsInit envA).1 harmlessResponse =
      ((mdnsInit envA).1, []) :=
  no_conflict_no_retry envA (mdnsInit envA).1 harmlessResponse (Or.inr rfl)

/-- Claim C8 (confirmed): a datagram whose payload fails to decode is
dropped silently — no output is emitted and the state is unchanged. -/
theorem decode_failure_silent (env : Env) (s : MdnsServer) (sock : Protocol)
    (d : Datagram) (h : d.decoded = none) :
    step s (Event.datagram env sock d) = (s, []) := by
  rw [step]
  split
  · unfold onReadyRead
    rw [h]
  · rfl

/-- Witness for C8 at a concrete undecodable datagram. -/
theorem decode_failure_silent_witness :
    step (mdnsInit envA).1 (Event.datagram envA Protocol.IPv4 garbageDatagram) =
      ((mdnsInit envA).1, []) :=
  decode_failure_silent envA (mdnsInit envA).1 Protocol.IPv4 garbageDatagram rfl

/-- Claim C9 (confirmed): a conflicting response triggers exactly one retry
regardless of how many of its records match: one suffix increment, one
candidate rebuild, one pair of probe queries; records after the first match
are ignored. -/
theorem first_matching_record_only (env : Env) (s : MdnsServer)
    (m : DnsMessage) (hc : s.mHostnameConfirmed = false)
    (hr : m.isResponse = true)
    (hm : m.records.any (conflictRecord s.mHostname) = true) :
    onMessageReceived env s m =
      ({ s with
          mHostname :=
            env.localHostName ++ ("-" ++ toString s.mHostnameSuffix) ++ ".local.",
          mHostnameSuffix := s.mHostnameSuffix + 1 },
       checkHostname
           (env.localHostName ++ ("-" ++ toString s.mHostnameSuffix) ++ ".local.")
           Protocol.IPv4 ++
         checkHostname
           (env.localHostName ++ ("-" ++ toString s.mHostnameSuffix) ++ ".local.")
           Protocol.IPv6) := by
  unfold onMessageReceived
  rw [if_pos hr]
  exact processRecords_first_match env s m.records hc hm

/-- Witness for C9: a response with two matching records still yields a
single increment (1 to 2) and a single pair of probes for `host-1.local.`. -/
theorem first_matching_record_only_witness :
    onMessageReceived envA (mdnsInit envA).1 doubleConflictMsg =
      ({ (mdnsInit envA).1 with
          mHostname := "host-1.local.", mHostnameSuffix := 2 },
       checkHostname "host-1.local." Protocol.IPv4 ++
         checkHostname "host-1.local." Protocol.IPv6) :=
  first_matching_record_only envA (mdnsInit envA).1 doubleConflictMsg rfl rfl rfl

/-- Claim C10 (confirmed): membership maintenance is idempotent on the
bound/joined socket state — running `onSocketTimeout` twice with the same
environment gives the same socket state as running it once. -/
theorem maintenance_idempotent (env : Env) (s : MdnsServer) :
    socketView (onSocketTimeout env (onSocketTimeout env s).1).1 =
      socketView (onSocketTimeout env s).1 := by
  have hb4 := onSocketTimeout_bound4 env s
  have hb6 := onSocketTimeout_bound6 env s
  have hj := onSocketTimeout_joined env s
  have hb4' := onSocketTimeout_bound4 env (onSocketTimeout env s).1
  have hb6' := onSocketTimeout_bound6 env (onSocketTimeout env s).1
  have hj' := onSocketTimeout_joined env (onSocketTimeout env s).1
  rw [hb4] at hb4' hj'
  rw [hb6] at hb6' hj'
  rw [bind_retry_stable] at hb4' hj'
  rw [bind_retry_stable] at hb6' hj'
  rw [hj] at hj'
  unfold socketView
  rw [hb4', hb6', hb4, hb6]
  by_cases hc : ((if s.ipv4Bound = true then true else (bindSocket env.bind4).1) ||
      (if s.ipv6Bound = true then true else (bindSocket env.bind6).1)) = true
  · rw [if_pos hc] at hj hj'
    rw [if_pos hc, joinGroups_idem] at hj'
    have e1 : (onSocketTimeout env (onSocketTimeout env s).1).1.ipv4Joined =
        (onSocketTimeout env s).1.ipv4Joined :=
      congrArg Prod.fst (hj'.trans hj.symm)
    have e2 : (onSocketTimeout env (onSocketTimeout env s).1).1.ipv6Joined =
        (onSocketTimeout env s).1.ipv6Joined :=
      congrArg Prod.snd (hj'.trans hj.symm)
    rw [e1, e2]
  · rw [Bool.not_eq_true] at hc
    rw [if_neg (by rw [hc]; exact Bool.false_ne_true)] at hj hj'
    rw [if_neg (by rw [hc]; exact Bool.false_ne_true)] at hj'
    have e1 : (onSocketTimeout env (onSocketTimeout env s).1).1.ipv4Joined =
        (onSocketTimeout env s).1.ipv4Joined :=
      congrArg Prod.fst (hj'.trans hj.symm)
    have e2 : (onSocketTimeout env (onSocketTimeout env s).1).1.ipv6Joined =
        (onSocketTimeout env s).1.ipv6Joined :=
      congrArg Prod.snd (hj'.trans hj.symm)
    rw [e1, e2]

/-- Claim C5 amended: with a fixed machine name `h`, at every instant the
candidate is either still unset (before any successful bind), the bare
`h.local.` with the counter at 1, or `h-k.local.` with the counter at
`k + 1`: the suffix written in the name is the value the counter had when the
name was formed, i.e. one behind the counter after a retry, and the bare form
corresponds to the counter value 1. -/
theorem candidate_matches_formation_counter (h : String) (env : Env)
    (events : List Event) (he : env.localHostName = h)
    (hev : events.all (eventHostOk h) = true) :
    candidateInv h (runInit env events).1 := by
  unfold runInit
  dsimp only
  have h0 : candidateInv h initialState := ⟨rfl, rfl, Or.inl ⟨rfl, rfl, rfl⟩⟩
  have hinit : candidateInv h (mdnsInit env).1 := by
    have := step_candidateInv h initialState (Event.socketTick env) h0
      (by simp [eventHostOk, he])
    simpa [step, mdnsInit] using this
  exact run_candidateInv h events _ hinit hev

/-- Witness for the amended C5 theorem on the concrete conflicting
lifetime. -/
theorem candidate_matches_formation_counter_witness :
    candidateInv "host" (runInit envA conflictTrace).1 :=
  candidate_matches_formation_counter "host" envA conflictTrace rfl rfl

end Mdns
